import Mathlib

/-!
Shallow embedding of the block-blast game core (TypeScript sources
`src/utils/grid.ts`, `src/utils/blocks.ts`, `src/utils/scoring.ts`,
`src/hooks/useGameState.ts`, `src/machines/gameMachine.ts`) and proofs of
the specification's claims about it.

Conventions of the embedding:
* JS `number` positions become `Int` (they may be negative before the
  bounds check); grid indices proper become `Fin 8`.
* A grid is a total function `Fin 8 → Fin 8 → Option BlockColor`;
  `null` cells are `none`.  Writes whose target lies outside the 8×8
  carrier are no-ops here (callers guard with `canPlaceBlock`, so such
  writes never happen along the verified paths).
* The JS random block generator (`generateRandomBlock`) is impure; every
  stateful function that consumes it takes an explicit generator
  `gen : Int → Block × Block × Block` producing the three fresh blocks a
  refill creates for a given score.
-/

namespace BlockBlast

/-- Constant `GRID_SIZE` from grid.ts. -/
abbrev GRID_SIZE : Nat := 8

/-- The 6 block colors of types/index.ts. -/
inductive BlockColor where
  | red
  | blue
  | green
  | yellow
  | purple
  | orange
deriving DecidableEq, Repr

/-- A grid cell: empty (`null` in the source) or a color. -/
abbrev GridCell := Option BlockColor

/-- The 8×8 grid, as a total function on indices. -/
abbrev Grid := Fin GRID_SIZE → Fin GRID_SIZE → GridCell

/-- A shape: 2D boolean matrix, `true` = occupied (types/index.ts). -/
abbrev BlockShape := List (List Bool)

/-- A block piece (types/index.ts). -/
structure Block where
  id : String
  shape : BlockShape
  color : BlockColor
deriving DecidableEq, Repr

/-- A position `{row, col}`; JS numbers, so `Int` here. -/
structure Position where
  row : Int
  col : Int
deriving DecidableEq, Repr

/-- Result of `checkLineClears` (types/index.ts); indices of complete
lines are genuine grid indices, so `Fin GRID_SIZE`. -/
structure LineClearResult where
  rows : List (Fin GRID_SIZE)
  cols : List (Fin GRID_SIZE)
  totalLines : Nat
deriving DecidableEq, Repr

/-- Function `getShapeCells` from blocks.ts: row-major list of the occupied
offsets of a shape. -/
def getShapeCells (shape : BlockShape) : List Position :=
  (shape.enum.map fun rowPair =>
    rowPair.2.enum.filterMap fun colPair =>
      if colPair.2 then some ⟨(rowPair.1 : Int), (colPair.1 : Int)⟩ else none).flatten

/-- Function `createEmptyGrid` from grid.ts: all cells `null`. -/
def createEmptyGrid : Grid := fun _ _ => none

/-- Function `isWithinBounds` from grid.ts. -/
def isWithinBounds (row col : Int) : Bool :=
  decide (0 ≤ row) && decide (row < (GRID_SIZE : Int)) &&
  decide (0 ≤ col) && decide (col < (GRID_SIZE : Int))

/-- Read `grid[row][col]` for integer coordinates; only ever used after
the bounds check, the out-of-range branch is unreachable there. -/
def gridGet (grid : Grid) (row col : Int) : GridCell :=
  if h : row.toNat < GRID_SIZE ∧ col.toNat < GRID_SIZE ∧ 0 ≤ row ∧ 0 ≤ col then
    grid ⟨row.toNat, h.1⟩ ⟨col.toNat, h.2.1⟩
  else none

/-- Write `grid[row][col] = value` for integer coordinates; a write
outside the 8×8 carrier changes nothing (guarded callers never do it). -/
def setCell (grid : Grid) (row col : Int) (value : GridCell) : Grid :=
  fun r c => if (r : Int) = row ∧ (c : Int) = col then value else grid r c

/-- Function `canPlaceBlock` from grid.ts: every occupied shape cell, offset by
the position, must be in bounds and land on an empty cell. -/
def canPlaceBlock (grid : Grid) (block : Block) (position : Position) : Bool :=
  (getShapeCells block.shape).all fun cell =>
    isWithinBounds (position.row + cell.row) (position.col + cell.col) &&
    (gridGet grid (position.row + cell.row) (position.col + cell.col)).isNone

/-- Function `placeBlock` from grid.ts: set every occupied shape cell (offset by
the position) to the block's color; pure, so the input grid is untouched. -/
def placeBlock (grid : Grid) (block : Block) (position : Position) : Grid :=
  (getShapeCells block.shape).foldl
    (fun g cell => setCell g (position.row + cell.row) (position.col + cell.col)
      (some block.color))
    grid

/-- Function `checkLineClears` from grid.ts: collect fully occupied rows and
columns independently. -/
def checkLineClears (grid : Grid) : LineClearResult :=
  let completedRows := (List.finRange GRID_SIZE).filter fun row =>
    (List.finRange GRID_SIZE).all fun col => (grid row col).isSome
  let completedCols := (List.finRange GRID_SIZE).filter fun col =>
    (List.finRange GRID_SIZE).all fun row => (grid row col).isSome
  ⟨completedRows, completedCols, completedRows.length + completedCols.length⟩

/-- Fin-indexed cell write used by `clearLines` (indices there come from
`LineClearResult`, hence already in range). -/
def setCellF (grid : Grid) (row col : Fin GRID_SIZE) (value : GridCell) : Grid :=
  fun r c => if r = row ∧ c = col then value else grid r c

/-- Function `clearLines` from grid.ts: null every cell of every listed row, then
of every listed column. -/
def clearLines (grid : Grid) (lineClear : LineClearResult) : Grid :=
  let afterRows := lineClear.rows.foldl
    (fun g row => (List.finRange GRID_SIZE).foldl
      (fun g' col => setCellF g' row col none) g)
    grid
  lineClear.cols.foldl
    (fun g col => (List.finRange GRID_SIZE).foldl
      (fun g' row => setCellF g' row col none) g)
    afterRows

/-- Function `canPlaceAnyBlock` from grid.ts: some non-null slot's block fits at
some of the 64 origins. -/
def canPlaceAnyBlock (grid : Grid) (inventory : List (Option Block)) : Bool :=
  inventory.any fun slot =>
    match slot with
    | none => false
    | some block =>
      (List.range GRID_SIZE).any fun row =>
        (List.range GRID_SIZE).any fun col =>
          canPlaceBlock grid block ⟨(row : Int), (col : Int)⟩

/-- Function `checkGameOver` from grid.ts: filters the null slots out; with no
blocks at all the game is not over (refill is coming), otherwise it is
over iff no remaining block fits anywhere. -/
def checkGameOver (grid : Grid) (inventory : List (Option Block)) : Bool :=
  let blocks := inventory.filterMap id
  if blocks.length = 0 then false
  else !(canPlaceAnyBlock grid (blocks.map some))

/-- The `BASE_POINTS` record from scoring.ts; keys outside the table map
to 0 (never looked up by `getBasePoints`). -/
def BASE_POINTS : Nat → Nat
  | 1 => 100
  | 2 => 300
  | 3 => 600
  | 4 => 1000
  | _ => 0

/-- Function `getBasePoints` from scoring.ts. -/
def getBasePoints (lineCount : Nat) : Nat :=
  if lineCount ≤ 0 then 0
  else if 4 ≤ lineCount then BASE_POINTS 4 + (lineCount - 4) * 300
  else BASE_POINTS lineCount

/-- Function `getComboMultiplier` from scoring.ts; JS arithmetic on these values
is exact, so rationals model it faithfully. -/
def getComboMultiplier (comboCount : Nat) : ℚ :=
  let multiplier : ℚ := 1 + ((comboCount : ℚ) - 1) * (1 / 2)
  min multiplier 8

/-- Return value of `calculateScore` (scoring.ts). -/
structure ScoreResult where
  points : Int
  basePoints : Nat
  multiplier : ℚ
deriving DecidableEq, Repr

/-- Function `calculateScore` from scoring.ts. -/
def calculateScore (lineClear : LineClearResult) (comboCount : Nat) : ScoreResult :=
  let basePoints := getBasePoints lineClear.totalLines
  let multiplier := if 0 < comboCount then getComboMultiplier comboCount else 1
  let points := ⌊(basePoints : ℚ) * multiplier⌋
  ⟨points, basePoints, multiplier⟩

/-- Function `getPlacementPoints` from scoring.ts: one point per occupied cell. -/
def getPlacementPoints (blockCellCount : Nat) : Nat := blockCellCount

/-- The hook's `GameState` from types/index.ts. -/
structure GameState where
  grid : Grid
  inventory : List (Option Block)
  score : Int
  highScore : Int
  combo : Nat
  isGameOver : Bool

/-- The hook's `GameAction` from useGameState.ts.  `CLEAR_LINES` is
declared in the source but has no reducer case (it falls to `default`). -/
inductive GameAction where
  | PLACE_BLOCK (blockIndex : Nat) (position : Position)
  | CLEAR_LINES (lineClear : LineClearResult)
  | REFILL_INVENTORY
  | SET_GAME_OVER
  | RESET_GAME
  | LOAD_HIGH_SCORE (highScore : Int)

/-- Function `createInitialState` from useGameState.ts, with the random inventory
supplied by the generator (called at score 0). -/
def createInitialState (gen : Int → Block × Block × Block) : GameState :=
  let fresh := gen 0
  { grid := createEmptyGrid
    inventory := [some fresh.1, some fresh.2.1, some fresh.2.2]
    score := 0
    highScore := 0
    combo := 0
    isGameOver := false }

/-- Function `gameReducer` from useGameState.ts.  `inventory[i]` for an index with
no slot and a null slot are both falsy in JS, hence the `getD _ none`. -/
def gameReducer (gen : Int → Block × Block × Block) (state : GameState)
    (action : GameAction) : GameState :=
  match action with
  | .PLACE_BLOCK blockIndex position =>
    match state.inventory.getD blockIndex none with
    | none => state
    | some block =>
      if canPlaceBlock state.grid block position then
        let newGrid := placeBlock state.grid block position
        let newInventory := state.inventory.set blockIndex none
        let cellCount := (getShapeCells block.shape).length
        let placementPoints := getPlacementPoints cellCount
        let lineClear := checkLineClears newGrid
        if 0 < lineClear.totalLines then
          let clearedGrid := clearLines newGrid lineClear
          let newCombo := state.combo + 1
          let points := (calculateScore lineClear newCombo).points
          { state with
              grid := clearedGrid
              inventory := newInventory
              score := state.score + (placementPoints : Int) + points
              combo := newCombo }
        else
          { state with
              grid := newGrid
              inventory := newInventory
              score := state.score + (placementPoints : Int)
              combo := 0 }
      else state
  | .REFILL_INVENTORY =>
    if state.inventory.all Option.isNone then
      let fresh := gen state.score
      { state with inventory := [some fresh.1, some fresh.2.1, some fresh.2.2] }
    else state
  | .SET_GAME_OVER =>
    { state with isGameOver := true, highScore := max state.score state.highScore }
  | .RESET_GAME =>
    { createInitialState gen with highScore := state.highScore }
  | .LOAD_HIGH_SCORE highScore =>
    { state with highScore := highScore }
  | .CLEAR_LINES _ => state

/-- The machine's state values (machines/types.ts). -/
inductive MState where
  | idle
  | dragging
  | placing
  | clearing
  | checkingGameOver
  | gameOver
deriving DecidableEq, Repr

/-- Payload of `currentDrag` (machines/types.ts). -/
structure DragState where
  blockIndex : Nat
  position : Option Position
  isValid : Bool
deriving DecidableEq, Repr

/-- Structure `GameMachineContext` from machines/types.ts. -/
structure GameMachineContext where
  grid : Grid
  inventory : List (Option Block)
  score : Int
  highScore : Int
  combo : Nat
  currentDrag : Option DragState
  linesToClear : Option LineClearResult

/-- Events `GameMachineEvent` from machines/types.ts. -/
inductive GameMachineEvent where
  | DRAG_START (blockIndex : Nat)
  | DRAG_UPDATE (position : Option Position) (isValid : Bool)
  | DRAG_CANCEL
  | DROP_BLOCK (position : Position)
  | CLEAR_COMPLETE
  | RESTART
  | LOAD_HIGH_SCORE (highScore : Int)

/-- Guard `isValidPlacement` from gameMachine.ts. -/
def isValidPlacement (ctx : GameMachineContext) (position : Position) : Bool :=
  match ctx.currentDrag with
  | none => false
  | some drag =>
    match ctx.inventory.getD drag.blockIndex none with
    | none => false
    | some block => canPlaceBlock ctx.grid block position

/-- Guard `hasLinesToClear` from gameMachine.ts. -/
def hasLinesToClear (ctx : GameMachineContext) : Bool :=
  match ctx.linesToClear with
  | none => false
  | some lineClear => 0 < lineClear.totalLines

/-- Guard `canContinue` from gameMachine.ts. -/
def canContinue (ctx : GameMachineContext) : Bool :=
  canPlaceAnyBlock ctx.grid ctx.inventory

/-- Guard `isInventoryEmpty` from gameMachine.ts. -/
def isInventoryEmpty (ctx : GameMachineContext) : Bool :=
  ctx.inventory.all Option.isNone

/-- Action `startDrag` from gameMachine.ts. -/
def startDrag (ctx : GameMachineContext) (blockIndex : Nat) : GameMachineContext :=
  { ctx with currentDrag := some ⟨blockIndex, none, false⟩ }

/-- Action `updateDrag` from gameMachine.ts. -/
def updateDrag (ctx : GameMachineContext) (position : Option Position)
    (isValid : Bool) : GameMachineContext :=
  match ctx.currentDrag with
  | none => { ctx with currentDrag := none }
  | some drag =>
    { ctx with currentDrag := some { drag with position := position, isValid := isValid } }

/-- Action `cancelDrag` from gameMachine.ts. -/
def cancelDrag (ctx : GameMachineContext) : GameMachineContext :=
  { ctx with currentDrag := none }

/-- Action `placeBlockOnGrid` from gameMachine.ts. -/
def placeBlockOnGrid (ctx : GameMachineContext) (position : Position) :
    GameMachineContext :=
  match ctx.currentDrag with
  | none => ctx
  | some drag =>
    match ctx.inventory.getD drag.blockIndex none with
    | none => ctx
    | some block =>
      let newGrid := placeBlock ctx.grid block position
      let newInventory := ctx.inventory.set drag.blockIndex none
      let cellCount := (getShapeCells block.shape).length
      let placementPoints := getPlacementPoints cellCount
      let lineClear := checkLineClears newGrid
      { ctx with
          grid := newGrid
          inventory := newInventory
          score := ctx.score + (placementPoints : Int)
          linesToClear := if 0 < lineClear.totalLines then some lineClear else none
          currentDrag := none }

/-- Action `clearLinesFromGrid` from gameMachine.ts (entry action of the
`clearing` state). -/
def clearLinesFromGrid (ctx : GameMachineContext) : GameMachineContext :=
  match ctx.linesToClear with
  | none => ctx
  | some lineClear =>
    let clearedGrid := clearLines ctx.grid lineClear
    let newCombo := ctx.combo + 1
    let points := (calculateScore lineClear newCombo).points
    { ctx with
        grid := clearedGrid
        score := ctx.score + points
        combo := newCombo
        linesToClear := none }

/-- Action `resetCombo` from gameMachine.ts. -/
def resetCombo (ctx : GameMachineContext) : GameMachineContext :=
  { ctx with combo := 0, linesToClear := none }

/-- Action `refillInventory` from gameMachine.ts, with the three random
blocks supplied by the generator. -/
def refillInventory (gen : Int → Block × Block × Block)
    (ctx : GameMachineContext) : GameMachineContext :=
  let fresh := gen ctx.score
  { ctx with inventory := [some fresh.1, some fresh.2.1, some fresh.2.2] }

/-- Action `updateHighScore` from gameMachine.ts. -/
def updateHighScore (ctx : GameMachineContext) : GameMachineContext :=
  if ctx.highScore < ctx.score then { ctx with highScore := ctx.score } else ctx

/-- Action `loadHighScore` from gameMachine.ts. -/
def loadHighScore (ctx : GameMachineContext) (highScore : Int) : GameMachineContext :=
  { ctx with highScore := highScore }

/-- Function `createInitialContext` from gameMachine.ts. -/
def createInitialContext (gen : Int → Block × Block × Block) (highScore : Int) :
    GameMachineContext :=
  let fresh := gen 0
  { grid := createEmptyGrid
    inventory := [some fresh.1, some fresh.2.1, some fresh.2.2]
    score := 0
    highScore := highScore
    combo := 0
    currentDrag := none
    linesToClear := none }

/-- Action `resetGame` from gameMachine.ts. -/
def resetGame (gen : Int → Block × Block × Block) (ctx : GameMachineContext) :
    GameMachineContext :=
  createInitialContext gen ctx.highScore

/-- A machine configuration: active state plus context. -/
abbrev MConfig := MState × GameMachineContext

/-- Entering `idle`: its `always` transition refills the inventory when
every slot is null. -/
def enterIdle (gen : Int → Block × Block × Block) (ctx : GameMachineContext) :
    MConfig :=
  (MState.idle, if isInventoryEmpty ctx then refillInventory gen ctx else ctx)

/-- Entering `gameOver` runs the transition's `updateHighScore` action. -/
def enterGameOver (ctx : GameMachineContext) : MConfig :=
  (MState.gameOver, updateHighScore ctx)

/-- Entering `checkingGameOver`: its ordered `always` list first refills
an all-empty inventory, then goes to `idle` when a move exists, else to
`gameOver`. -/
def enterCheckingGameOver (gen : Int → Block × Block × Block)
    (ctx : GameMachineContext) : MConfig :=
  let ctx' := if isInventoryEmpty ctx then refillInventory gen ctx else ctx
  if canContinue ctx' then enterIdle gen ctx'
  else enterGameOver ctx'

/-- Entering `clearing` runs its entry action and then waits for
CLEAR_COMPLETE. -/
def enterClearing (ctx : GameMachineContext) : MConfig :=
  (MState.clearing, clearLinesFromGrid ctx)

/-- Entering `placing`: its `always` list goes to `clearing` when lines
are pending, else resets the combo and goes to `checkingGameOver`. -/
def enterPlacing (gen : Int → Block × Block × Block) (ctx : GameMachineContext) :
    MConfig :=
  if hasLinesToClear ctx then enterClearing ctx
  else enterCheckingGameOver gen (resetCombo ctx)

/-- One externally delivered event processed to completion, including the
chained `always` transitions of any state entered on the way; an event
with no transition in the current state leaves the configuration
untouched (xstate's unhandled-event semantics). -/
def machineStep (gen : Int → Block × Block × Block) (config : MConfig)
    (event : GameMachineEvent) : MConfig :=
  match config.1, event with
  | .idle, .DRAG_START blockIndex => (MState.dragging, startDrag config.2 blockIndex)
  | .idle, .LOAD_HIGH_SCORE value => (MState.idle, loadHighScore config.2 value)
  | .idle, .RESTART => enterIdle gen (resetGame gen config.2)
  | .dragging, .DRAG_UPDATE position isValid =>
    (MState.dragging, updateDrag config.2 position isValid)
  | .dragging, .DRAG_CANCEL => enterIdle gen (cancelDrag config.2)
  | .dragging, .DROP_BLOCK position =>
    if isValidPlacement config.2 position then
      enterPlacing gen (placeBlockOnGrid config.2 position)
    else enterIdle gen (cancelDrag config.2)
  | .clearing, .CLEAR_COMPLETE => enterCheckingGameOver gen config.2
  | .gameOver, .RESTART => enterIdle gen (resetGame gen config.2)
  | _, _ => config

/-- A 1×1 test block used by concrete witnesses. -/
def testSingle : Block := ⟨"single", [[true]], BlockColor.red⟩

/-- A fully occupied test grid used by concrete witnesses. -/
def fullGrid : Grid := fun _ _ => some BlockColor.blue

lemma setCell_apply (g : Grid) (row col : Int) (v : GridCell) (r c : Fin GRID_SIZE) :
    setCell g row col v r c =
      if (r : Int) = row ∧ (c : Int) = col then v else g r c := rfl

lemma foldl_setCell_apply (p : Position) (v : GridCell) (cells : List Position) :
    ∀ (g : Grid) (r c : Fin GRID_SIZE),
      (cells.foldl (fun g' cell =>
        setCell g' (p.row + cell.row) (p.col + cell.col) v) g) r c =
      if ∃ cell ∈ cells, (r : Int) = p.row + cell.row ∧ (c : Int) = p.col + cell.col
      then v else g r c := by
  induction cells with
  | nil => intro g r c; simp
  | cons hd tl ih =>
    intro g r c
    simp only [List.foldl_cons, ih, setCell, List.mem_cons]
    by_cases h1 : ∃ cell ∈ tl,
        (r : Int) = p.row + cell.row ∧ (c : Int) = p.col + cell.col
    · have h2 : ∃ cell, (cell = hd ∨ cell ∈ tl) ∧
          ((r : Int) = p.row + cell.row ∧ (c : Int) = p.col + cell.col) := by
        obtain ⟨x, hx, hxx⟩ := h1
        exact ⟨x, Or.inr hx, hxx⟩
      simp [h1, h2]
    · by_cases h2 : (r : Int) = p.row + hd.row ∧ (c : Int) = p.col + hd.col
      · have h3 : ∃ cell, (cell = hd ∨ cell ∈ tl) ∧
            ((r : Int) = p.row + cell.row ∧ (c : Int) = p.col + cell.col) :=
          ⟨hd, Or.inl rfl, h2⟩
        simp [h1, h2, h3]
      · have h3 : ¬ ∃ cell, (cell = hd ∨ cell ∈ tl) ∧
            ((r : Int) = p.row + cell.row ∧ (c : Int) = p.col + cell.col) := by
          rintro ⟨x, hx | hx, hxx⟩
          · exact h2 (hx ▸ hxx)
          · exact h1 ⟨x, hx, hxx⟩
        simp [h1, h2, h3]

lemma canPlaceBlock_eq_true_iff (g : Grid) (b : Block) (p : Position) :
    canPlaceBlock g b p = true ↔
      ∀ cell ∈ getShapeCells b.shape,
        (0 ≤ p.row + cell.row ∧ p.row + cell.row < (GRID_SIZE : Int) ∧
         0 ≤ p.col + cell.col ∧ p.col + cell.col < (GRID_SIZE : Int)) ∧
        gridGet g (p.row + cell.row) (p.col + cell.col) = none := by
  simp [canPlaceBlock, List.all_eq_true, isWithinBounds, Bool.and_eq_true,
    decide_eq_true_eq, Option.isNone_iff_eq_none, and_assoc]

/-- C1: for every grid G, block B and position P with `canPlaceBlock G B P`
true, `placeBlock G B P` holds `B.color` at exactly the cells of
`getShapeCells B.shape` offset by P and agrees with G everywhere else.
The source returns a fresh grid; in this pure embedding the input grid is
untouched by construction, so the content of the claim is the cell-wise
description of the result. -/
theorem placeBlock_sets_exactly_shape_cells (g : Grid) (b : Block) (p : Position)
    (_hcan : canPlaceBlock g b p = true) (r c : Fin GRID_SIZE) :
    placeBlock g b p r c =
      if ∃ cell ∈ getShapeCells b.shape,
          (r : Int) = p.row + cell.row ∧ (c : Int) = p.col + cell.col
      then some b.color else g r c :=
  foldl_setCell_apply p (some b.color) (getShapeCells b.shape) g r c

/-- Witness for C1 at a concrete input: the 1×1 block placed on the empty
grid at (2,3). -/
theorem placeBlock_sets_exactly_shape_cells_witness :
    canPlaceBlock createEmptyGrid testSingle ⟨2, 3⟩ = true ∧
    placeBlock createEmptyGrid testSingle ⟨2, 3⟩ 2 3 =
      (if ∃ cell ∈ getShapeCells testSingle.shape,
          ((2 : Fin GRID_SIZE) : Int) = (2 : Int) + cell.row ∧
          ((3 : Fin GRID_SIZE) : Int) = (3 : Int) + cell.col
       then some testSingle.color else createEmptyGrid 2 3) :=
  ⟨by decide,
   placeBlock_sets_exactly_shape_cells createEmptyGrid testSingle ⟨2, 3⟩ (by decide) 2 3⟩

/-- C2: `canPlaceBlock G B P` is false iff some occupied shape cell,
offset by P, is outside [0,8)×[0,8) or lands on a non-empty grid cell;
equivalently it is true iff every such cell is in bounds and empty. -/
theorem canPlaceBlock_false_iff_violation (g : Grid) (b : Block) (p : Position) :
    (canPlaceBlock g b p = false ↔
      ∃ cell ∈ getShapeCells b.shape,
        ¬(0 ≤ p.row + cell.row ∧ p.row + cell.row < (GRID_SIZE : Int) ∧
          0 ≤ p.col + cell.col ∧ p.col + cell.col < (GRID_SIZE : Int)) ∨
        gridGet g (p.row + cell.row) (p.col + cell.col) ≠ none) ∧
    (canPlaceBlock g b p = true ↔
      ∀ cell ∈ getShapeCells b.shape,
        (0 ≤ p.row + cell.row ∧ p.row + cell.row < (GRID_SIZE : Int) ∧
         0 ≤ p.col + cell.col ∧ p.col + cell.col < (GRID_SIZE : Int)) ∧
        gridGet g (p.row + cell.row) (p.col + cell.col) = none) := by
  refine ⟨?_, canPlaceBlock_eq_true_iff g b p⟩
  rw [Bool.eq_false_iff, ne_eq, canPlaceBlock_eq_true_iff]
  constructor
  · intro hn
    simp only [not_forall, Classical.not_imp, not_and_or, ne_eq] at hn ⊢
    obtain ⟨cell, hmem, hcell⟩ := hn
    exact ⟨cell, hmem, hcell⟩
  · rintro ⟨cell, hmem, hb | ho⟩ hall
    · exact hb (hall cell hmem).1
    · exact ho (hall cell hmem).2

lemma mem_checkLineClears_rows (g : Grid) (r : Fin GRID_SIZE) :
    r ∈ (checkLineClears g).rows ↔ ∀ c, (g r c).isSome = true := by
  simp [checkLineClears, List.mem_filter, List.all_eq_true, List.mem_finRange]

lemma mem_checkLineClears_cols (g : Grid) (c : Fin GRID_SIZE) :
    c ∈ (checkLineClears g).cols ↔ ∀ r, (g r c).isSome = true := by
  simp [checkLineClears, List.mem_filter, List.all_eq_true, List.mem_finRange]

lemma checkLineClears_totalLines (g : Grid) :
    (checkLineClears g).totalLines =
      (checkLineClears g).rows.length + (checkLineClears g).cols.length := rfl

lemma foldl_clearInRow (row : Fin GRID_SIZE) (cols : List (Fin GRID_SIZE)) :
    ∀ (g : Grid) (r c : Fin GRID_SIZE),
      (cols.foldl (fun g' col => setCellF g' row col none) g) r c =
      if r = row ∧ c ∈ cols then none else g r c := by
  induction cols with
  | nil => intro g r c; simp
  | cons hd tl ih =>
    intro g r c
    simp only [List.foldl_cons, ih, setCellF, List.mem_cons]
    by_cases h1 : r = row
    · by_cases h2 : c ∈ tl
      · simp [h1, h2]
      · by_cases h3 : c = hd
        · simp [h1, h2, h3]
        · simp [h1, h2, h3]
    · simp [h1]

lemma foldl_clearInCol (col : Fin GRID_SIZE) (rows : List (Fin GRID_SIZE)) :
    ∀ (g : Grid) (r c : Fin GRID_SIZE),
      (rows.foldl (fun g' row => setCellF g' row col none) g) r c =
      if r ∈ rows ∧ c = col then none else g r c := by
  induction rows with
  | nil => intro g r c; simp
  | cons hd tl ih =>
    intro g r c
    simp only [List.foldl_cons, ih, setCellF, List.mem_cons]
    by_cases h1 : c = col
    · by_cases h2 : r ∈ tl
      · simp [h1, h2]
      · by_cases h3 : r = hd
        · simp [h1, h2, h3]
        · simp [h1, h2, h3]
    · simp [h1]

lemma foldl_clearRows (rows : List (Fin GRID_SIZE)) :
    ∀ (g : Grid) (r c : Fin GRID_SIZE),
      (rows.foldl (fun g row => (List.finRange GRID_SIZE).foldl
        (fun g' col => setCellF g' row col none) g) g) r c =
      if r ∈ rows then none else g r c := by
  induction rows with
  | nil => intro g r c; simp
  | cons hd tl ih =>
    intro g r c
    simp only [List.foldl_cons, ih, List.mem_cons]
    rw [foldl_clearInRow]
    by_cases h1 : r ∈ tl
    · simp [h1]
    · by_cases h2 : r = hd
      · simp [h1, h2, List.mem_finRange]
      · simp [h1, h2]

lemma foldl_clearCols (cols : List (Fin GRID_SIZE)) :
    ∀ (g : Grid) (r c : Fin GRID_SIZE),
      (cols.foldl (fun g col => (List.finRange GRID_SIZE).foldl
        (fun g' row => setCellF g' row col none) g) g) r c =
      if c ∈ cols then none else g r c := by
  induction cols with
  | nil => intro g r c; simp
  | cons hd tl ih =>
    intro g r c
    simp only [List.foldl_cons, ih, List.mem_cons]
    rw [foldl_clearInCol]
    by_cases h1 : c ∈ tl
    · simp [h1]
    · by_cases h2 : c = hd
      · simp [h1, h2, List.mem_finRange]
      · simp [h1, h2]

lemma clearLines_apply (g : Grid) (lineClear : LineClearResult) (r c : Fin GRID_SIZE) :
    clearLines g lineClear r c =
      if r ∈ lineClear.rows ∨ c ∈ lineClear.cols then none else g r c := by
  unfold clearLines
  rw [foldl_clearCols, foldl_clearRows]
  by_cases h1 : c ∈ lineClear.cols <;> by_cases h2 : r ∈ lineClear.rows <;>
    simp [h1, h2]

/-- A test grid whose row 3 is entirely occupied and whose other cells
are empty, used by concrete witnesses. -/
def row3Grid : Grid := fun r _ => if r = 3 then some BlockColor.green else none

/-- C7: `clearLines G R` empties exactly the cells lying in a listed row
or column and preserves every other cell; concretely, when row 3 is fully
occupied, `checkLineClears` reports row 3, and clearing its result leaves
row 3 fully empty while (when row 3 is the only full row) every cell
outside row 3 and outside every cleared column keeps its previous value. -/
theorem clearLines_clears_exactly_listed_lines :
    (∀ (g : Grid) (lineClear : LineClearResult) (r c : Fin GRID_SIZE),
      clearLines g lineClear r c =
        if r ∈ lineClear.rows ∨ c ∈ lineClear.cols then none else g r c) ∧
    (∀ g : Grid, (∀ c, (g 3 c).isSome = true) →
      ((3 : Fin GRID_SIZE) ∈ (checkLineClears g).rows ∧
       (∀ c, clearLines g (checkLineClears g) 3 c = none) ∧
       ((∀ r : Fin GRID_SIZE, (∀ c, (g r c).isSome = true) → r = 3) →
         ∀ r c : Fin GRID_SIZE, r ≠ 3 → c ∉ (checkLineClears g).cols →
           clearLines g (checkLineClears g) r c = g r c))) := by
  refine ⟨clearLines_apply, ?_⟩
  intro g hrow3
  have h3 : (3 : Fin GRID_SIZE) ∈ (checkLineClears g).rows :=
    (mem_checkLineClears_rows g 3).mpr hrow3
  refine ⟨h3, ?_, ?_⟩
  · intro c
    rw [clearLines_apply]
    simp [h3]
  · intro honly r c hr hc
    have hrows : r ∉ (checkLineClears g).rows := by
      intro hmem
      exact hr (honly r ((mem_checkLineClears_rows g r).mp hmem))
    rw [clearLines_apply]
    simp [hrows, hc]

/-- Witness for C7 at a concrete input: the grid whose row 3 is full. -/
theorem clearLines_clears_exactly_listed_lines_witness :
    (∀ c, (row3Grid 3 c).isSome = true) ∧
    (3 : Fin GRID_SIZE) ∈ (checkLineClears row3Grid).rows ∧
    clearLines row3Grid (checkLineClears row3Grid) 3 0 = none ∧
    clearLines row3Grid (checkLineClears row3Grid) 5 2 = row3Grid 5 2 := by
  have h := clearLines_clears_exactly_listed_lines.2 row3Grid (by decide)
  exact ⟨by decide, h.1, h.2.1 0, h.2.2 (by decide) 5 2 (by decide) (by decide)⟩

lemma checkLineClears_after_clear (g : Grid) :
    (checkLineClears (clearLines g (checkLineClears g))).totalLines = 0 := by
  have hrows : (checkLineClears (clearLines g (checkLineClears g))).rows = [] := by
    rw [List.eq_nil_iff_forall_not_mem]
    intro r hr
    rw [mem_checkLineClears_rows] at hr
    by_cases hrL : r ∈ (checkLineClears g).rows
    · have h0 := hr 0
      rw [clearLines_apply] at h0
      simp [hrL] at h0
    · cases hcols : (checkLineClears g).cols with
      | nil =>
        apply hrL
        rw [mem_checkLineClears_rows]
        intro c
        have hc := hr c
        rw [clearLines_apply, hcols] at hc
        simpa [hrL] using hc
      | cons c0 rest =>
        have hc := hr c0
        rw [clearLines_apply, hcols] at hc
        simp [List.mem_cons] at hc
  have hcols : (checkLineClears (clearLines g (checkLineClears g))).cols = [] := by
    rw [List.eq_nil_iff_forall_not_mem]
    intro c hc
    rw [mem_checkLineClears_cols] at hc
    by_cases hcL : c ∈ (checkLineClears g).cols
    · have h0 := hc 0
      rw [clearLines_apply] at h0
      simp [hcL] at h0
    · cases hrows' : (checkLineClears g).rows with
      | nil =>
        apply hcL
        rw [mem_checkLineClears_cols]
        intro r
        have hr := hc r
        rw [clearLines_apply, hrows'] at hr
        simpa [hcL] using hr
      | cons r0 rest =>
        have hr := hc r0
        rw [clearLines_apply, hrows'] at hr
        simp [List.mem_cons] at hr
  rw [checkLineClears_totalLines, hrows, hcols]
  rfl

/-- C10: clearing is applied in the same synchronous step as the
placement, so every grid at which the controller comes to rest has no
fully occupied row or column.  First conjunct: clearing the result of
`checkLineClears` always leaves a grid with no full lines; second
conjunct: the reducer's PLACE_BLOCK preserves the no-full-lines
invariant of the resting grid. -/
theorem resting_grid_has_no_full_lines :
    (∀ g : Grid, (checkLineClears (clearLines g (checkLineClears g))).totalLines = 0) ∧
    (∀ (gen : Int → Block × Block × Block) (s : GameState) (i : Nat) (p : Position),
      (checkLineClears s.grid).totalLines = 0 →
      (checkLineClears (gameReducer gen s (.PLACE_BLOCK i p)).grid).totalLines = 0) := by
  refine ⟨checkLineClears_after_clear, ?_⟩
  intro gen s i p h0
  simp only [gameReducer]
  split
  · exact h0
  · rename_i block hinv
    split
    · split
      · exact checkLineClears_after_clear (placeBlock s.grid block p)
      · rename_i hlines
        show (checkLineClears (placeBlock s.grid block p)).totalLines = 0
        omega
    · exact h0

/-- A test game state used by concrete witnesses: empty grid, one 1×1
block in slot 0. -/
def testState : GameState :=
  { grid := createEmptyGrid
    inventory := [some testSingle, none, none]
    score := 0
    highScore := 0
    combo := 0
    isGameOver := false }

/-- A deterministic block generator used by concrete witnesses. -/
def testGen : Int → Block × Block × Block := fun _ => (testSingle, testSingle, testSingle)

/-- Witness for C10 at a concrete input: placing the 1×1 block at (0,0)
on the empty grid. -/
theorem resting_grid_has_no_full_lines_witness :
    (checkLineClears testState.grid).totalLines = 0 ∧
    (checkLineClears
      (gameReducer testGen testState (.PLACE_BLOCK 0 ⟨0, 0⟩)).grid).totalLines = 0 :=
  ⟨by decide,
   resting_grid_has_no_full_lines.2 testGen testState 0 ⟨0, 0⟩ (by decide)⟩

/-- C5: `calculateScore` returns `basePoints = getBasePoints totalLines`
with the table {1:100, 2:300, 3:600, 4:1000} and the linear extrapolation
`1000 + (n-4)*300` beyond 4; the multiplier is `getComboMultiplier` for a
positive combo count and 1 otherwise; the points are the floor of their
product; and the two concrete values of the spec hold. -/
theorem calculateScore_formula :
    getBasePoints 1 = 100 ∧ getBasePoints 2 = 300 ∧ getBasePoints 3 = 600 ∧
    getBasePoints 4 = 1000 ∧
    (∀ n : Nat, 4 < n → getBasePoints n = 1000 + (n - 4) * 300) ∧
    (∀ (lineClear : LineClearResult) (comboCount : Nat),
      calculateScore lineClear comboCount =
        ⟨⌊(getBasePoints lineClear.totalLines : ℚ) *
            (if 0 < comboCount then getComboMultiplier comboCount else 1)⌋,
          getBasePoints lineClear.totalLines,
          if 0 < comboCount then getComboMultiplier comboCount else 1⟩) ∧
    (calculateScore ⟨[], [], 1⟩ 0).points = 100 ∧
    (calculateScore ⟨[], [], 2⟩ 2).points = 450 := by
  refine ⟨rfl, rfl, rfl, rfl, ?_, fun _ _ => rfl, ?_, ?_⟩
  · intro n hn
    unfold getBasePoints
    rw [if_neg (by omega), if_pos (by omega)]
    rfl
  · norm_num [calculateScore, getBasePoints, BASE_POINTS]
  · norm_num [calculateScore, getBasePoints, BASE_POINTS, getComboMultiplier]

/-- Witness for C5 at a concrete input: the extrapolation at 7 lines. -/
theorem calculateScore_formula_witness :
    4 < 7 ∧ getBasePoints 7 = 1000 + (7 - 4) * 300 :=
  ⟨by decide, calculateScore_formula.2.2.2.2.1 7 (by decide)⟩

/-- C6: `getComboMultiplier comboCount` is `min (1 + (comboCount-1)*0.5) 8`
for every combo count, takes the spec's four sample values, is
non-decreasing from 1 on, is strictly below the cap until comboCount 15,
and equals the cap 8 from 15 on. -/
theorem getComboMultiplier_capped_formula :
    (∀ comboCount : Nat,
      getComboMultiplier comboCount = min (1 + ((comboCount : ℚ) - 1) * (1 / 2)) 8) ∧
    getComboMultiplier 1 = 1 ∧ getComboMultiplier 2 = 3 / 2 ∧
    getComboMultiplier 3 = 2 ∧ getComboMultiplier 15 = 8 ∧
    (∀ c d : Nat, 1 ≤ c → c ≤ d → getComboMultiplier c ≤ getComboMultiplier d) ∧
    (∀ c : Nat, 1 ≤ c → c < 15 → getComboMultiplier c < 8) ∧
    (∀ c : Nat, 15 ≤ c → getComboMultiplier c = 8) := by
  refine ⟨fun _ => rfl, by norm_num [getComboMultiplier],
    by norm_num [getComboMultiplier], by norm_num [getComboMultiplier],
    by norm_num [getComboMultiplier], ?_, ?_, ?_⟩
  · intro c d _ hcd
    simp only [getComboMultiplier]
    have h : (c : ℚ) ≤ d := by exact_mod_cast hcd
    apply min_le_min _ le_rfl
    linarith
  · intro c _ h15
    simp only [getComboMultiplier]
    have h : (c : ℚ) ≤ 14 := by exact_mod_cast Nat.lt_succ_iff.mp h15
    calc min (1 + ((c : ℚ) - 1) * (1 / 2)) 8 ≤ 1 + ((c : ℚ) - 1) * (1 / 2) :=
        min_le_left _ _
    _ < 8 := by linarith
  · intro c h15
    simp only [getComboMultiplier]
    have h : (15 : ℚ) ≤ c := by exact_mod_cast h15
    rw [min_eq_right]
    linarith

/-- Witness for C6 at concrete inputs: monotone between 2 and 5, below
the cap at 7, capped at 20. -/
theorem getComboMultiplier_capped_formula_witness :
    ((1 ≤ 2 ∧ 2 ≤ 5) ∧ getComboMultiplier 2 ≤ getComboMultiplier 5) ∧
    getComboMultiplier 7 < 8 ∧ getComboMultiplier 20 = 8 :=
  ⟨⟨⟨by decide, by decide⟩,
    getComboMultiplier_capped_formula.2.2.2.2.2.1 2 5 (by decide) (by decide)⟩,
   getComboMultiplier_capped_formula.2.2.2.2.2.2.1 7 (by decide) (by decide),
   getComboMultiplier_capped_formula.2.2.2.2.2.2.2 20 (by decide)⟩

lemma canPlaceAnyBlock_filter_nulls (g : Grid) (inventory : List (Option Block)) :
    canPlaceAnyBlock g ((inventory.filterMap id).map some) = canPlaceAnyBlock g inventory := by
  induction inventory with
  | nil => rfl
  | cons hd tl ih =>
    simp only [canPlaceAnyBlock] at ih ⊢
    cases hd with
    | none => simpa [List.filterMap_cons] using ih
    | some b => simp [List.filterMap_cons, ih]

lemma filterMap_id_length_zero_iff (inventory : List (Option Block)) :
    (inventory.filterMap id).length = 0 ↔ inventory.all Option.isNone = true := by
  induction inventory with
  | nil => simp
  | cons hd tl ih => cases hd <;> simp [List.filterMap_cons, ih]

/-- C3 counterexample: on a fully occupied grid, with an inventory whose
slot 0 is empty but whose slot 1 holds a 1×1 block, `checkGameOver`
returns true — refuting the claim that it returns false whenever any
inventory slot is empty. -/
theorem checkGameOver_true_despite_empty_slot :
    checkGameOver fullGrid [none, some testSingle, none] = true ∧
    [none, some testSingle, none].getD 0 none = (none : Option Block) := by
  constructor
  · decide
  · rfl

/-- C3 amended: `checkGameOver` returns false exactly when every
inventory slot is empty; when at least one slot holds a block it returns
true iff `canPlaceAnyBlock` is false (so a single empty slot does not
suppress game over). -/
theorem checkGameOver_false_iff_all_slots_empty (g : Grid)
    (inventory : List (Option Block)) :
    checkGameOver g inventory =
      if inventory.all Option.isNone then false else !(canPlaceAnyBlock g inventory) := by
  simp only [checkGameOver]
  by_cases h : inventory.all Option.isNone = true
  · rw [if_pos ((filterMap_id_length_zero_iff inventory).mpr h), if_pos h]
  · rw [if_neg (fun hh => h ((filterMap_id_length_zero_iff inventory).mp hh)),
      if_neg h, canPlaceAnyBlock_filter_nulls]

lemma enterCheckingGameOver_combo (gen : Int → Block × Block × Block)
    (ctx : GameMachineContext) :
    (enterCheckingGameOver gen ctx).2.combo = ctx.combo := by
  simp only [enterCheckingGameOver, enterIdle, enterGameOver, refillInventory,
    updateHighScore]
  split_ifs <;> rfl

/-- C4: when a committed placement produced pending lines, entering
`clearing` sets grid to `clearLines grid pendingClear`, adds
`calculateScore pendingClear (combo+1) |>.points` to the score, increments
the combo by exactly 1 and clears the pending lines; a committed
placement with no pending lines leaves the machine with combo 0. -/
theorem clearing_applies_score_and_combo (gen : Int → Block × Block × Block)
    (ctx : GameMachineContext) :
    (∀ lineClear, ctx.linesToClear = some lineClear →
      enterClearing ctx = (MState.clearing,
        { ctx with
            grid := clearLines ctx.grid lineClear
            score := ctx.score + (calculateScore lineClear (ctx.combo + 1)).points
            combo := ctx.combo + 1
            linesToClear := none })) ∧
    (ctx.linesToClear = none → (enterPlacing gen ctx).2.combo = 0) := by
  constructor
  · intro lineClear h
    unfold enterClearing clearLinesFromGrid
    rw [h]
  · intro h
    unfold enterPlacing hasLinesToClear
    rw [h]
    show (enterCheckingGameOver gen (resetCombo ctx)).2.combo = 0
    rw [enterCheckingGameOver_combo]
    rfl

/-- A machine context with a pending line clear, used by concrete
witnesses. -/
def testClearCtx : GameMachineContext :=
  { grid := row3Grid
    inventory := [some testSingle, none, none]
    score := 10
    highScore := 0
    combo := 2
    currentDrag := none
    linesToClear := some (checkLineClears row3Grid) }

/-- A machine context with no pending line clear, used by concrete
witnesses. -/
def testNoClearCtx : GameMachineContext :=
  { testClearCtx with linesToClear := none }

/-- Witness for C4 at concrete inputs: a context with pending lines and a
context without. -/
theorem clearing_applies_score_and_combo_witness :
    enterClearing testClearCtx = (MState.clearing,
      { testClearCtx with
          grid := clearLines testClearCtx.grid (checkLineClears row3Grid)
          score := testClearCtx.score +
            (calculateScore (checkLineClears row3Grid) (testClearCtx.combo + 1)).points
          combo := testClearCtx.combo + 1
          linesToClear := none }) ∧
    (enterPlacing testGen testNoClearCtx).2.combo = 0 :=
  ⟨(clearing_applies_score_and_combo testGen testClearCtx).1
      (checkLineClears row3Grid) rfl,
   (clearing_applies_score_and_combo testGen testNoClearCtx).2 rfl⟩

/-- C8: a drop whose target block is missing or whose position fails
`canPlaceBlock` mutates nothing: the reducer returns its state unchanged,
and the machine (when some inventory slot is occupied, as in every
reachable dragging configuration) returns to `idle` with only the drag
cleared. -/
theorem invalid_placement_rejected_without_mutation :
    (∀ (gen : Int → Block × Block × Block) (s : GameState) (i : Nat) (p : Position),
      (∀ b, s.inventory.getD i none = some b → canPlaceBlock s.grid b p = false) →
      gameReducer gen s (.PLACE_BLOCK i p) = s) ∧
    (∀ (gen : Int → Block × Block × Block) (ctx : GameMachineContext) (p : Position),
      (∀ drag, ctx.currentDrag = some drag →
        ∀ b, ctx.inventory.getD drag.blockIndex none = some b →
          canPlaceBlock ctx.grid b p = false) →
      ctx.inventory.all Option.isNone = false →
      machineStep gen (MState.dragging, ctx) (.DROP_BLOCK p) =
        (MState.idle, { ctx with currentDrag := none })) := by
  constructor
  · intro gen s i p h
    simp only [gameReducer]
    split
    · rfl
    · rename_i b hb
      rw [if_neg (by simp [h b hb])]
  · intro gen ctx p h hne
    have hval : isValidPlacement ctx p = false := by
      unfold isValidPlacement
      split
      · rfl
      · rename_i drag hd
        split
        · rfl
        · rename_i b hb
          exact h drag hd b hb
    simp [machineStep, hval, enterIdle, isInventoryEmpty, cancelDrag, hne]

/-- A game state with a full grid, used by concrete witnesses for
rejected placements. -/
def testStuckState : GameState :=
  { grid := fullGrid
    inventory := [some testSingle, none, none]
    score := 0
    highScore := 0
    combo := 0
    isGameOver := false }

/-- A dragging-state machine context over a full grid, used by concrete
witnesses for rejected drops. -/
def testDropCtx : GameMachineContext :=
  { grid := fullGrid
    inventory := [some testSingle, none, none]
    score := 0
    highScore := 0
    combo := 0
    currentDrag := some ⟨0, none, false⟩
    linesToClear := none }

/-- Witness for C8 at concrete inputs: dropping the 1×1 block on a full
grid, in the reducer and in the machine. -/
theorem invalid_placement_rejected_without_mutation_witness :
    gameReducer testGen testStuckState (.PLACE_BLOCK 0 ⟨0, 0⟩) = testStuckState ∧
    machineStep testGen (MState.dragging, testDropCtx) (.DROP_BLOCK ⟨0, 0⟩) =
      (MState.idle, { testDropCtx with currentDrag := none }) :=
  ⟨invalid_placement_rejected_without_mutation.1 testGen testStuckState 0 ⟨0, 0⟩
      (by
        intro b hb
        have hb' : some testSingle = some b := hb
        have hbk : testSingle = b := Option.some.inj hb'
        subst hbk
        decide),
   invalid_placement_rejected_without_mutation.2 testGen testDropCtx ⟨0, 0⟩
      (by
        intro drag hd b hb
        have hd' : some (⟨0, none, false⟩ : DragState) = some drag := hd
        have hdk : (⟨0, none, false⟩ : DragState) = drag := Option.some.inj hd'
        subst hdk
        have hb' : some testSingle = some b := hb
        have hbk : testSingle = b := Option.some.inj hb'
        subst hbk
        decide)
      (by decide)⟩

/-- An all-empty machine context in which the game has ended, used by the
concrete C9 counterexample. -/
def testOverCtx : GameMachineContext :=
  { grid := createEmptyGrid
    inventory := [none, none, none]
    score := 0
    highScore := 0
    combo := 0
    currentDrag := none
    linesToClear := none }

/-- C9 counterexample: in the `gameOver` state the machine has no
LOAD_HIGH_SCORE handler, so the event is a no-op and highScore stays 0
instead of becoming 42 — refuting the claim that the event sets highScore
in the gameOver state. -/
theorem loadHighScore_ignored_in_gameOver :
    machineStep testGen (MState.gameOver, testOverCtx) (.LOAD_HIGH_SCORE 42) =
      (MState.gameOver, testOverCtx) ∧
    testOverCtx.highScore ≠ 42 :=
  ⟨rfl, by decide⟩

/-- C9 amended: in `idle`, LOAD_HIGH_SCORE sets highScore to the given
value and leaves the state and every other context field unchanged; in
`gameOver` the event is unhandled, so state and context (highScore
included) are unchanged. -/
theorem loadHighScore_idle_only (gen : Int → Block × Block × Block)
    (ctx : GameMachineContext) (value : Int) :
    machineStep gen (MState.idle, ctx) (.LOAD_HIGH_SCORE value) =
      (MState.idle, { ctx with highScore := value }) ∧
    machineStep gen (MState.gameOver, ctx) (.LOAD_HIGH_SCORE value) =
      (MState.gameOver, ctx) :=
  ⟨rfl, rfl⟩

end BlockBlast
